import Mathlib

/-!
Shallow embedding of the untappd API client (src/client.go) and proofs of
the specification claims about it.

Conventions of the embedding:
* Go strings are Lean `String`s, Go `int`/`int64` are Lean `Int`.
* `time.Duration` (an `int64` count of nanoseconds) is a Lean `Int`.
* Fallible Go code returning `error` is modelled with `Option GoError`
  (`none` = nil error) or `Except GoError α`.
* `float64` magnitudes that flow through `fmt.Sprintf("%f", ·)` are modelled
  as rationals (`ℚ`); the 6-decimal-place rounding that `%f` performs is
  modelled by rounding the rational at 10^-6.  NaN/infinity inputs and the
  binary-float rounding of decimal literals are outside the model.
-/

namespace Untappd

/-- Content type constant `jsonContentType` from src/client.go line 19. -/
def jsonContentType : String := "application/json"

/-- Embeds the `Error` struct of src/client.go lines 66-72.  The Go field
`Type` is renamed `eType` because `Type` is a Lean keyword; `Duration` is an
integer count of nanoseconds (Go `time.Duration`). -/
structure Error where
  Code : Int
  Detail : String
  eType : String
  DeveloperFriendly : String
  Duration : Int
deriving DecidableEq

/-- Embeds the `Error.Error` method of src/client.go lines 75-84: render
`"<code> [<type>]: <details>"`, where `details` starts as `Detail` and is
replaced by `DeveloperFriendly` when the latter is non-empty. -/
def Error.Error (e : Error) : String :=
  let details := e.Detail
  let details := if e.DeveloperFriendly ≠ "" then e.DeveloperFriendly else details
  toString e.Code ++ " [" ++ e.eType ++ "]: " ++ details

/-- Rendering contract stated from the spec's words (section 6, "Error string
rendering"): canonical form `"<code> [<type>]: <preferred-detail>"` where
preferred-detail is the developer-friendly string if non-empty, else the
plain detail string.  Used only to compare against `Error.Error`. -/
def errorStringSpec (e : Error) : String :=
  toString e.Code ++ " [" ++ e.eType ++ "]: "
    ++ (if e.DeveloperFriendly ≠ "" then e.DeveloperFriendly else e.Detail)

/-- Go `error` values that the client layer can return.  Constructors mirror
the distinct error identities used by src/client.go and its tests:
the content-type mismatch error of line 149, the standard library errors
`io.EOF` and `io.ErrUnexpectedEOF` surfaced by `encoding/json`, JSON
syntax-level errors (`*json.SyntaxError`), JSON type-mismatch errors
(`*json.UnmarshalTypeError`), and the API `*Error` of lines 178-187. -/
inductive GoError where
  | contentType (expected actual : String)
  | ioEOF
  | ioUnexpectedEOF
  | badJson (msg : String)
  | typeErr (msg : String)
  | api (e : Error)
deriving DecidableEq

/-- Message rendered by each `GoError`, matching the Go error strings:
line 149 builds `"expected %s content type, but received %s"`; `io.EOF`
renders `"EOF"`; `io.ErrUnexpectedEOF` renders `"unexpected EOF"`. -/
def GoError.message : GoError → String
  | .contentType expected actual =>
      "expected " ++ expected ++ " content type, but received " ++ actual
  | .ioEOF => "EOF"
  | .ioUnexpectedEOF => "unexpected EOF"
  | .badJson msg => msg
  | .typeErr msg => msg
  | .api e => Error.Error e

/-- Abstract handle standing for a Go `*http.Client`.  Only handle identity
matters to the claims; `tag` distinguishes handles. -/
structure HttpClient where
  tag : Nat
deriving DecidableEq

/-- Stands for the process-wide `http.DefaultClient` substituted at
src/client.go line 42. -/
def defaultHttpClient : HttpClient := ⟨0⟩

/-- Embeds the parts of Go `url.URL` that `NewClient` fills in
(src/client.go lines 48-52). -/
structure URL where
  scheme : String
  host : String
  path : String
deriving DecidableEq

/-- Base URL built by `NewClient`: `https://api.untappd.com/v4`. -/
def baseURL : URL := ⟨"https", "api.untappd.com", "v4"⟩

/-- Embeds the `Client` struct of src/client.go lines 24-32. -/
structure Client where
  client : HttpClient
  url : URL
  clientID : String
  clientSecret : String
  userAgent : String
deriving DecidableEq

/-- Embeds `NewClient` of src/client.go lines 39-63: substitute the default
HTTP client for a nil handle, then build the `Client` value.  Note the
function performs no validation of `clientID`/`clientSecret` and always
returns a nil error (`Except.ok`). -/
def NewClient (clientID : String) (clientSecret : String)
    (client : Option HttpClient) : Except GoError Client :=
  let client := match client with
    | none => defaultHttpClient
    | some c => c
  Except.ok
    { client := client
      url := baseURL
      clientID := clientID
      clientSecret := clientSecret
      userAgent := "github.com/mdlayher/untappd" }

/-- Go `url.Values` (`map[string][]string`) modelled extensionally as the
function from a key to its list of values; absent keys map to `[]`. -/
def Values := String → List String

/-- Empty `url.Values`: what `u.Query()` yields at src/client.go line 98 when
the resolved URL carries no query string (the base URL of `NewClient` has
none, and endpoint paths contribute none). -/
def Values.empty : Values := fun _ => []

/-- Go `Values.Add`: append one value to the key's slice. -/
def Values.add (q : Values) (k v : String) : Values :=
  fun x => if x = k then q k ++ [v] else q x

/-- Go `Values.Set`: replace the key's slice with the single value. -/
def Values.set (q : Values) (k v : String) : Values :=
  fun x => if x = k then [v] else q x

/-- Embeds the loop of src/client.go lines 99-103: for every key of `query`,
`q.Add` each of its values in slice order.  Since `Add` touches only its own
key, iterating the Go map key-by-key (in any order) appends `query k` to
`q k` for every key `k`, which is what this function returns. -/
def Values.addAll (q : Values) (query : Values) : Values :=
  fun k => q k ++ query k

/-- Embeds the query-string assembly of `request`, src/client.go lines
98-108: start from the resolved URL's (empty) query, add all caller
parameters, then `Set` the two credential parameters. -/
def requestQuery (c : Client) (query : Values) : Values :=
  ((Values.empty.addAll query).set "client_id" c.clientID).set
    "client_secret" c.clientSecret

/-- Embeds the `timeUnits` map of src/client.go lines 194-198 as an
association list. -/
def timeUnits : List (String × String) :=
  [("milliseconds", "ms"), ("seconds", "s"), ("minutes", "m")]

/-- Nanoseconds denoted by each Go duration-unit suffix that `timeUnits`
can produce, as consumed by `time.ParseDuration`. -/
def unitNanos (u : String) : Int :=
  if u = "ms" then 1000000
  else if u = "s" then 1000000000
  else 60000000000

/-- Rounding of a rational to the nearest integer, halves away from zero at
ties downward — `⌊x + 1/2⌋` computed on the numerator and denominator.  It
models the rounding that `fmt.Sprintf("%f", ·)` performs at the sixth
decimal place (the half-to-even tie choice on the binary float is not
modelled; no claim input sits at a tie). -/
def ratRound (x : ℚ) : Int :=
  Int.fdiv (2 * x.num + (x.den : Int)) (2 * (x.den : Int))

/-- Embeds `timeUnitToDuration` of src/client.go lines 192-215.  Unknown
measures return the zero duration.  Otherwise the Go code formats the
magnitude with `fmt.Sprintf("%f", ·)` — six digits after the decimal point,
modelled by rounding `timeFloat` at 10^-6 — and parses the result with
`time.ParseDuration`, whose value on such input is exactly the rounded
magnitude scaled to nanoseconds; a parse overflow past the `int64` range
makes the Go code return the zero duration. -/
def timeUnitToDuration (timeFloat : ℚ) (measure : String) : Int :=
  match timeUnits.lookup measure with
  | none => 0
  | some timeUnit =>
    let fixed6 : Int := ratRound (timeFloat * 1000000)
    let d : Int := fixed6 * (unitNanos timeUnit / 1000000)
    if d ≤ 9223372036854775807 ∧ -9223372036854775808 ≤ d then d else 0

/-- JSON values, the target of a generic `encoding/json` decode. -/
inductive Jval where
  | null
  | bool (b : Bool)
  | num (q : ℚ)
  | str (s : String)
  | arr (xs : List Jval)
  | obj (fields : List (String × Jval))

/-- Whitespace characters that `encoding/json` skips between tokens. -/
def isJsonWs (c : Char) : Bool :=
  c = ' ' || c = '\t' || c = '\n' || c = '\r'

/-- Decimal digit test for the JSON number grammar. -/
def isDigitChar (c : Char) : Bool :=
  '0' ≤ c && c ≤ '9'

/-- Splits a leading run of decimal digits off a character list. -/
def takeDigits (cs : List Char) : List Char × List Char :=
  (cs.takeWhile isDigitChar, cs.dropWhile isDigitChar)

/-- Numeric value of a digit run. -/
def digitsToNat (ds : List Char) : Nat :=
  ds.foldl (fun acc c => acc * 10 + (c.toNat - '0'.toNat)) 0

/-- Single-character string escapes of the JSON grammar. -/
def escChar : Char → Option Char
  | '"' => some '"'
  | '\\' => some '\\'
  | '/' => some '/'
  | 'b' => some (Char.ofNat 8)
  | 'f' => some (Char.ofNat 12)
  | 'n' => some '\n'
  | 'r' => some '\r'
  | 't' => some '\t'
  | _ => none

/-- Value of one hexadecimal digit. -/
def hexDigitVal (c : Char) : Option Nat :=
  if '0' ≤ c ∧ c ≤ '9' then some (c.toNat - '0'.toNat)
  else if 'a' ≤ c ∧ c ≤ 'f' then some (c.toNat - 'a'.toNat + 10)
  else if 'A' ≤ c ∧ c ≤ 'F' then some (c.toNat - 'A'.toNat + 10)
  else none

/-- Value of a four-hex-digit escape. -/
def hex4 (a b c d : Char) : Option Nat := do
  let x ← hexDigitVal a
  let y ← hexDigitVal b
  let z ← hexDigitVal c
  let w ← hexDigitVal d
  pure (((x * 16 + y) * 16 + z) * 16 + w)

/-- Parses the body of a JSON string literal (the opening quote already
consumed), per the `encoding/json` scanner: input exhausted inside the
literal is `io.ErrUnexpectedEOF`; a raw control character or a bad escape is
a syntax-level error.  Surrogate-pair recombination of consecutive `\\u`
escapes is not modelled. -/
def parseStringChars : List Char → Except GoError (List Char × List Char)
  | [] => .error .ioUnexpectedEOF
  | '"' :: rest => .ok ([], rest)
  | '\\' :: 'u' :: a :: b :: c :: d :: rest =>
    match hex4 a b c d with
    | some n => (parseStringChars rest).map (fun p => (Char.ofNat n :: p.1, p.2))
    | none => .error (.badJson "invalid character in \\u hexadecimal character escape")
  | ['\\'] => .error .ioUnexpectedEOF
  | '\\' :: e :: rest =>
    match escChar e with
    | some c => (parseStringChars rest).map (fun p => (c :: p.1, p.2))
    | none =>
      if e = 'u' then .error .ioUnexpectedEOF
      else .error (.badJson "invalid character in string escape code")
  | c :: rest =>
    if c.toNat < 32 then .error (.badJson "invalid character in string literal")
    else (parseStringChars rest).map (fun p => (c :: p.1, p.2))

/-- Parses the exponent-and-assembly tail of a JSON number: given the sign,
integer part and fraction digits already read, reads an optional exponent
and returns the rational value with the remaining input. -/
def parseExpPart (neg : Bool) (mantissa : ℚ) (cs : List Char) :
    Except GoError (ℚ × List Char) :=
  let finish : ℚ → List Char → Except GoError (ℚ × List Char) := fun q rest =>
    .ok ((if neg then -q else q), rest)
  match cs with
  | 'e' :: rest | 'E' :: rest =>
    let (eNeg, rest1) := match rest with
      | '-' :: r => (true, r)
      | '+' :: r => (false, r)
      | _ => (false, rest)
    match takeDigits rest1 with
    | ([], []) => .error .ioUnexpectedEOF
    | ([], _) => .error (.badJson "invalid character in exponent of numeric literal")
    | (eds, rest2) =>
      let e : Int := if eNeg then -(digitsToNat eds : Int) else (digitsToNat eds : Int)
      finish (mantissa * (10 : ℚ) ^ e) rest2
  | _ => finish mantissa cs

/-- Parses a JSON number per the grammar
`-?(0|[1-9][0-9]*)(\\.[0-9]+)?([eE][+-]?[0-9]+)?`, yielding its exact
rational value (the generic decode target is a `float64`; the binary
rounding of that conversion is not modelled). -/
def parseNum (cs : List Char) : Except GoError (ℚ × List Char) :=
  let (neg, cs1) := match cs with
    | '-' :: rest => (true, rest)
    | _ => (false, cs)
  match takeDigits cs1 with
  | ([], []) => .error .ioUnexpectedEOF
  | ([], _) => .error (.badJson "invalid character in numeric literal")
  | (ids, rest) =>
    if ids.length > 1 ∧ ids.headD '0' = '0' then
      .error (.badJson "invalid character after leading zero in numeric literal")
    else
      let i : ℚ := (digitsToNat ids : ℚ)
      match rest with
      | '.' :: rest1 =>
        match takeDigits rest1 with
        | ([], []) => .error .ioUnexpectedEOF
        | ([], _) => .error (.badJson "invalid character after decimal point in numeric literal")
        | (fds, rest2) =>
          parseExpPart neg (i + (digitsToNat fds : ℚ) / (10 : ℚ) ^ fds.length) rest2
      | _ => parseExpPart neg i rest

/-- Matches the remaining characters of a literal keyword (`true`, `false`,
`null`): premature end of input is `io.ErrUnexpectedEOF`, a wrong character
is a syntax-level error. -/
def parseLit (expect : List Char) (cs : List Char) (v : Jval) :
    Except GoError (Jval × List Char) :=
  match expect, cs with
  | [], rest => .ok (v, rest)
  | _ :: _, [] => .error .ioUnexpectedEOF
  | l :: ls, c :: rest =>
    if c = l then parseLit ls rest v
    else .error (.badJson ("invalid character " ++ String.singleton c ++ " in literal"))

mutual

/-- Parses one JSON value, modelling what one `json.Decoder.Decode` call
reads: leading whitespace is skipped, input exhausted mid-value is
`io.ErrUnexpectedEOF`, an impossible first character is a syntax-level
error.  `fuel` strictly decreases on every recursive call; callers supply
enough for any input of the given length. -/
def parseVal : Nat → List Char → Except GoError (Jval × List Char)
  | 0, _ => .error (.badJson "value nesting exhausted")
  | fuel + 1, cs =>
    match cs.dropWhile isJsonWs with
    | [] => .error .ioUnexpectedEOF
    | '{' :: rest => (parseObjFields fuel true rest).map (fun p => (Jval.obj p.1, p.2))
    | '[' :: rest => (parseArrElems fuel true rest).map (fun p => (Jval.arr p.1, p.2))
    | '"' :: rest => (parseStringChars rest).map (fun p => (Jval.str (String.mk p.1), p.2))
    | 't' :: rest => parseLit ['r', 'u', 'e'] rest (Jval.bool true)
    | 'f' :: rest => parseLit ['a', 'l', 's', 'e'] rest (Jval.bool false)
    | 'n' :: rest => parseLit ['u', 'l', 'l'] rest Jval.null
    | c :: rest =>
      if c = '-' || isDigitChar c then
        (parseNum (c :: rest)).map (fun p => (Jval.num p.1, p.2))
      else
        .error (.badJson ("invalid character " ++ String.singleton c
          ++ " looking for beginning of value"))

/-- Parses the members of a JSON object after `{` (or after a `,` when
`allowEnd` is false, since `{"k":v,}` is not valid JSON). -/
def parseObjFields : Nat → Bool → List Char →
    Except GoError (List (String × Jval) × List Char)
  | 0, _, _ => .error (.badJson "value nesting exhausted")
  | fuel + 1, allowEnd, cs =>
    match cs.dropWhile isJsonWs with
    | [] => .error .ioUnexpectedEOF
    | '}' :: rest =>
      if allowEnd then .ok ([], rest)
      else .error (.badJson "invalid character \x7d looking for beginning of object key string")
    | '"' :: rest =>
      match parseStringChars rest with
      | .error e => .error e
      | .ok (keyCs, r1) =>
        match r1.dropWhile isJsonWs with
        | ':' :: r2 =>
          match parseVal fuel r2 with
          | .error e => .error e
          | .ok (v, r3) =>
            match r3.dropWhile isJsonWs with
            | ',' :: r4 =>
              match parseObjFields fuel false r4 with
              | .error e => .error e
              | .ok (fs, r5) => .ok ((String.mk keyCs, v) :: fs, r5)
            | '}' :: r4 => .ok ([(String.mk keyCs, v)], r4)
            | [] => .error .ioUnexpectedEOF
            | _ => .error (.badJson "invalid character after object key:value pair")
        | [] => .error .ioUnexpectedEOF
        | _ => .error (.badJson "invalid character after object key")
    | _ => .error (.badJson "invalid character looking for beginning of object key string")

/-- Parses the elements of a JSON array after `[` (or after a `,` when
`allowEnd` is false, since `[v,]` is not valid JSON). -/
def parseArrElems : Nat → Bool → List Char → Except GoError (List Jval × List Char)
  | 0, _, _ => .error (.badJson "value nesting exhausted")
  | fuel + 1, allowEnd, cs =>
    match cs.dropWhile isJsonWs with
    | [] => .error .ioUnexpectedEOF
    | ']' :: rest =>
      if allowEnd then .ok ([], rest)
      else .error (.badJson "invalid character ] looking for beginning of value")
    | cs1 =>
      match parseVal fuel cs1 with
      | .error e => .error e
      | .ok (v, r1) =>
        match r1.dropWhile isJsonWs with
        | ',' :: r2 =>
          match parseArrElems fuel false r2 with
          | .error e => .error e
          | .ok (vs, r3) => .ok (v :: vs, r3)
        | ']' :: r2 => .ok ([v], r2)
        | [] => .error .ioUnexpectedEOF
        | _ => .error (.badJson "invalid character after array element")

end

/-- Models one `json.NewDecoder(body).Decode(·)` call reading a generic
value from the full body string: an input that is empty (or all whitespace)
yields `io.EOF` before any value begins; otherwise one value is parsed and
any input after it is left unread, exactly as the streaming decoder
behaves.  The fuel bound exceeds the number of recursive parser calls
possible on the input. -/
def decodeValue (s : String) : Except GoError Jval :=
  match s.data.dropWhile isJsonWs with
  | [] => .error .ioEOF
  | cs => (parseVal (2 * cs.length + 4) cs).map Prod.fst

/-- Field lookup in a decoded JSON object; as in `encoding/json`, when a key
occurs more than once the last occurrence wins. -/
def jLookup (fields : List (String × Jval)) (k : String) : Option Jval :=
  (fields.reverse.find? (fun f => f.1 == k)).map Prod.snd

/-- Decodes an optional JSON field into a Go `int` field: a missing field or
JSON `null` leaves the zero value; a non-integral number or a non-number is
an `*json.UnmarshalTypeError` (`int64` overflow is not modelled). -/
def jvalToInt : Option Jval → Except GoError Int
  | none => .ok 0
  | some Jval.null => .ok 0
  | some (Jval.num q) =>
    if q.den = 1 then .ok q.num
    else .error (.typeErr "cannot unmarshal number into Go value of type int")
  | some _ => .error (.typeErr "cannot unmarshal JSON value into Go value of type int")

/-- Decodes an optional JSON field into a Go `string` field. -/
def jvalToString : Option Jval → Except GoError String
  | none => .ok ""
  | some Jval.null => .ok ""
  | some (Jval.str s) => .ok s
  | some _ => .error (.typeErr "cannot unmarshal JSON value into Go value of type string")

/-- Decodes an optional JSON field into a Go `float64` field, kept as an
exact rational. -/
def jvalToRat : Option Jval → Except GoError ℚ
  | none => .ok 0
  | some Jval.null => .ok 0
  | some (Jval.num q) => .ok q
  | some _ => .error (.typeErr "cannot unmarshal JSON value into Go value of type float64")

/-- Embeds the anonymous `response_time` struct of src/client.go lines
165-168. -/
structure ResponseTimeRaw where
  time : ℚ
  measure : String
deriving DecidableEq

/-- Embeds the anonymous `meta` struct of src/client.go lines 160-169. -/
structure ApiMeta where
  code : Int
  errorDetail : String
  errorType : String
  developerFriendly : String
  responseTime : ResponseTimeRaw
deriving DecidableEq

/-- Decodes the `response_time` object; missing or `null` leaves zero
values, and any other JSON shape is a type error, as in `encoding/json`. -/
def decodeResponseTime : Option Jval → Except GoError ResponseTimeRaw
  | none => .ok ⟨0, ""⟩
  | some Jval.null => .ok ⟨0, ""⟩
  | some (Jval.obj fs) => do
    let t ← jvalToRat (jLookup fs "time")
    let m ← jvalToString (jLookup fs "measure")
    pure ⟨t, m⟩
  | some _ => .error (.typeErr "cannot unmarshal JSON value into Go value of type struct")

/-- Decodes the `meta` object of the error envelope. -/
def decodeApiMeta : Option Jval → Except GoError ApiMeta
  | none => .ok ⟨0, "", "", "", ⟨0, ""⟩⟩
  | some Jval.null => .ok ⟨0, "", "", "", ⟨0, ""⟩⟩
  | some (Jval.obj fs) => do
    let code ← jvalToInt (jLookup fs "code")
    let detail ← jvalToString (jLookup fs "error_detail")
    let eType ← jvalToString (jLookup fs "error_type")
    let dev ← jvalToString (jLookup fs "developer_friendly")
    let rt ← decodeResponseTime (jLookup fs "response_time")
    pure ⟨code, detail, eType, dev, rt⟩
  | some _ => .error (.typeErr "cannot unmarshal JSON value into Go value of type struct")

/-- Models the envelope decode of src/client.go line 173:
`json.NewDecoder(res.Body).Decode(&apiErr)` with `apiErr` the intermediary
struct of lines 159-170.  Decoder-level failures (empty body, truncated or
malformed JSON) are returned exactly as the decoder produced them. -/
def decodeEnvelope (s : String) : Except GoError ApiMeta := do
  let v ← decodeValue s
  match v with
  | Jval.obj fs => decodeApiMeta (jLookup fs "meta")
  | Jval.null => pure ⟨0, "", "", "", ⟨0, ""⟩⟩
  | _ => .error (.typeErr "cannot unmarshal JSON value into Go value of type struct")

/-- Embeds the parts of a Go `*http.Response` that `checkResponse` and the
tail of `request` read: the status code, the first `Content-Type` header
value (`res.Header.Get("Content-Type")`), and the body stream contents. -/
structure Response where
  statusCode : Int
  contentType : String
  body : String
deriving DecidableEq

/-- Embeds `checkResponse` of src/client.go lines 146-188: fail on a
content-type other than `application/json`; accept any status in
[200, 299]; otherwise decode the error envelope — returning its decode
error as-is on failure — and assemble the API `*Error`, converting the
reported response time with `timeUnitToDuration`. -/
def checkResponse (res : Response) : Option GoError :=
  if res.contentType ≠ jsonContentType then
    some (GoError.contentType jsonContentType res.contentType)
  else if 200 ≤ res.statusCode ∧ res.statusCode ≤ 299 then
    none
  else
    match decodeEnvelope res.body with
    | .error err => some err
    | .ok m =>
      some (GoError.api
        { Code := m.code
          Detail := m.errorDetail
          eType := m.errorType
          DeveloperFriendly := m.developerFriendly
          Duration := timeUnitToDuration m.responseTime.time m.responseTime.measure })

/-- Embeds the response-handling tail of `request`, src/client.go lines
130-141, given the response the transport returned: a validation error is
returned alongside the response; with no destination (`v == nil`, here
`hasDest = false`) the response is returned with a nil error and no decode
is attempted; with a destination the body is decoded by a standard JSON
decode (`decodeValue`, the destination's field structure abstracted away)
and the decode's error result is returned unmodified. -/
def requestFinish (res : Response) (hasDest : Bool) : Response × Option GoError :=
  match checkResponse res with
  | some err => (res, some err)
  | none =>
    if hasDest = false then (res, none)
    else
      match decodeValue res.body with
      | .error e => (res, some e)
      | .ok _ => (res, none)

/-- C1: the claim states that `NewClient` with an empty client identifier
fails with the missing-identifier error, with an empty secret fails with the
missing-secret error, and so on.  The code does no such validation: this
theorem evaluates `NewClient` at each failing input of the repository's own
`TestNewClient` and shows that construction succeeds with a nil error in
every case, contradicting the claim and that test. -/
theorem NewClient_accepts_empty_credentials :
    NewClient "" "" none =
      Except.ok ⟨defaultHttpClient, baseURL, "", "", "github.com/mdlayher/untappd"⟩ ∧
    NewClient "" "bar" none =
      Except.ok ⟨defaultHttpClient, baseURL, "", "bar", "github.com/mdlayher/untappd"⟩ ∧
    NewClient "foo" "" none =
      Except.ok ⟨defaultHttpClient, baseURL, "foo", "", "github.com/mdlayher/untappd"⟩ :=
  ⟨rfl, rfl, rfl⟩

/-- C2: the query string built by `request` maps `client_id` and
`client_secret` to exactly the client's configured credentials — overriding
any caller-supplied values under those keys — and maps every other key to
exactly the caller-supplied list of values. -/
theorem requestQuery_credentials_override (c : Client) (query : Values) :
    requestQuery c query "client_id" = [c.clientID] ∧
    requestQuery c query "client_secret" = [c.clientSecret] ∧
    ∀ k, k ≠ "client_id" → k ≠ "client_secret" → requestQuery c query k = query k := by
  refine ⟨?_, ?_, fun k h1 h2 => ?_⟩
  · simp [requestQuery, Values.set, Values.addAll, Values.empty]
  · simp [requestQuery, Values.set, Values.addAll, Values.empty]
  · simp [requestQuery, Values.set, Values.addAll, Values.empty, h1, h2]

/-- Witness for C2 at a concrete client and query map that itself tries to
smuggle in a `client_id` value. -/
theorem requestQuery_credentials_override_witness :
    requestQuery ⟨⟨0⟩, baseURL, "id123", "sec456", "ua"⟩
      (fun k => if k = "client_id" then ["evil"]
        else if k = "baz" then ["qux", "corge"] else []) "client_id" = ["id123"] ∧
    requestQuery ⟨⟨0⟩, baseURL, "id123", "sec456", "ua"⟩
      (fun k => if k = "client_id" then ["evil"]
        else if k = "baz" then ["qux", "corge"] else []) "baz" = ["qux", "corge"] :=
  ⟨(requestQuery_credentials_override _ _).1,
    ((requestQuery_credentials_override _ _).2.2 "baz" (by decide) (by decide)).trans
      (by decide)⟩

/-- C3: `timeUnitToDuration` maps 0.05 milliseconds to 1/20000 of a second
(50000 ns), 500 milliseconds to 500 ms, 0.5 seconds to 500 ms, 0.5 minutes
to exactly 30 s, 1 minute to 60 s, 2 minutes to 120 s, and any measure
outside the three-word vocabulary to the zero duration for every magnitude,
with no error (the function's type is not even fallible). -/
theorem timeUnitToDuration_matches_spec :
    timeUnitToDuration (5 / 100) "milliseconds" = 1000000000 / 20000 ∧
    timeUnitToDuration 500 "milliseconds" = 500000000 ∧
    timeUnitToDuration (5 / 10) "seconds" = 500000000 ∧
    timeUnitToDuration (5 / 10) "minutes" = 30000000000 ∧
    timeUnitToDuration 1 "minutes" = 60000000000 ∧
    timeUnitToDuration 2 "minutes" = 120000000000 ∧
    ∀ (t : ℚ) (u : String), u ≠ "milliseconds" → u ≠ "seconds" → u ≠ "minutes" →
      timeUnitToDuration t u = 0 := by
  refine ⟨?_, ?_, ?_, ?_, ?_, ?_, fun t u h1 h2 h3 => ?_⟩
  case _ => (norm_num [timeUnitToDuration, timeUnits, ratRound, unitNanos]; decide)
  case _ => (norm_num [timeUnitToDuration, timeUnits, ratRound, unitNanos]; decide)
  case _ => (norm_num [timeUnitToDuration, timeUnits, ratRound, unitNanos]; decide)
  case _ => (norm_num [timeUnitToDuration, timeUnits, ratRound, unitNanos]; decide)
  case _ => (norm_num [timeUnitToDuration, timeUnits, ratRound, unitNanos]; decide)
  case _ => (norm_num [timeUnitToDuration, timeUnits, ratRound, unitNanos]; decide)
  case _ =>
    have e1 : (u == "milliseconds") = false := beq_eq_false_iff_ne.mpr h1
    have e2 : (u == "seconds") = false := beq_eq_false_iff_ne.mpr h2
    have e3 : (u == "minutes") = false := beq_eq_false_iff_ne.mpr h3
    simp [timeUnitToDuration, timeUnits, List.lookup, e1, e2, e3]

/-- Witness for C3 at a concrete unrecognized unit. -/
theorem timeUnitToDuration_matches_spec_witness :
    timeUnitToDuration 7 "lightyears" = 0 :=
  timeUnitToDuration_matches_spec.2.2.2.2.2.2 7 "lightyears"
    (by decide) (by decide) (by decide)

/-- C4: `checkResponse` on any response whose content type differs from
`application/json` fails — whatever the status code — with the content-type
error, whose message renders the expected and the actual type. -/
theorem checkResponse_content_type_mismatch (res : Response)
    (h : res.contentType ≠ jsonContentType) :
    checkResponse res = some (GoError.contentType jsonContentType res.contentType) ∧
    (GoError.contentType jsonContentType res.contentType).message =
      "expected " ++ jsonContentType ++ " content type, but received " ++ res.contentType ∧
    jsonContentType = "application/json" := by
  refine ⟨?_, rfl, rfl⟩
  simp only [checkResponse, if_pos h]

/-- Witness for C4 at the repository test's input: content type `foo/bar`
with the in-success-range status 200. -/
theorem checkResponse_content_type_mismatch_witness :
    checkResponse ⟨200, "foo/bar", ""⟩ =
      some (GoError.contentType jsonContentType "foo/bar") :=
  (checkResponse_content_type_mismatch ⟨200, "foo/bar", ""⟩ (by decide)).1

/-- C5: `checkResponse` on a JSON-typed response with a non-2xx status and
an empty body returns `io.EOF`, with the truncated body `"{"` returns
`io.ErrUnexpectedEOF` — each decode error passed through as-is — and the two
errors are distinct values. -/
theorem checkResponse_envelope_decode_errors (res : Response)
    (hct : res.contentType = jsonContentType)
    (hst : ¬(200 ≤ res.statusCode ∧ res.statusCode ≤ 299)) :
    (res.body = "" → checkResponse res = some GoError.ioEOF) ∧
    (res.body = "\x7b" → checkResponse res = some GoError.ioUnexpectedEOF) ∧
    GoError.ioEOF ≠ GoError.ioUnexpectedEOF := by
  have hct' : ¬res.contentType ≠ jsonContentType := by simp [hct]
  refine ⟨fun hb => ?_, fun hb => ?_, by decide⟩
  · simp only [checkResponse, if_neg hct', if_neg hst, hb]
    rfl
  · simp only [checkResponse, if_neg hct', if_neg hst, hb]
    rfl

/-- Witness for C5 at status 500, matching the repository tests
`Test_checkResponseJSONEOF` and `Test_checkResponseJSONUnexpectedEOF`. -/
theorem checkResponse_envelope_decode_errors_witness :
    checkResponse ⟨500, jsonContentType, ""⟩ = some GoError.ioEOF ∧
    checkResponse ⟨500, jsonContentType, "\x7b"⟩ = some GoError.ioUnexpectedEOF :=
  ⟨(checkResponse_envelope_decode_errors ⟨500, jsonContentType, ""⟩ rfl
      (by decide)).1 rfl,
    (checkResponse_envelope_decode_errors ⟨500, jsonContentType, "\x7b"⟩ rfl
      (by decide)).2.1 rfl⟩

/-- C6: `checkResponse` on a JSON-typed response with status in [200, 299]
returns a nil error, whatever the body contains. -/
theorem checkResponse_success_range (res : Response)
    (hct : res.contentType = jsonContentType)
    (h1 : 200 ≤ res.statusCode) (h2 : res.statusCode ≤ 299) :
    checkResponse res = none := by
  have hct' : ¬res.contentType ≠ jsonContentType := by simp [hct]
  simp only [checkResponse, if_neg hct', if_pos (And.intro h1 h2)]

/-- Witness for C6 at an empty body and at a body that is not even valid
JSON, matching `Test_checkResponseOKNoBody` and `Test_checkResponseOKWithBody`. -/
theorem checkResponse_success_range_witness :
    checkResponse ⟨200, jsonContentType, ""⟩ = none ∧
    checkResponse ⟨299, jsonContentType, "not json"⟩ = none :=
  ⟨checkResponse_success_range ⟨200, jsonContentType, ""⟩ rfl (by decide) (by decide),
    checkResponse_success_range ⟨299, jsonContentType, "not json"⟩ rfl
      (by decide) (by decide)⟩

/-- C7: for every `Error` value, `Error.Error` renders exactly
`"<code> [<type>]: <preferred-detail>"` as the spec words it
(`errorStringSpec`); the three rows of the repository's `TestErrorError`
evaluate accordingly. -/
theorem Error_Error_rendering :
    (∀ e : Error, Error.Error e = errorStringSpec e) ∧
    Error.Error ⟨500, "authentication failed", "auth_failed", "", 0⟩ =
      "500 [auth_failed]: authentication failed" ∧
    Error.Error ⟨501, "", "auth_failed", "authentication failed due to server error", 0⟩ =
      "501 [auth_failed]: authentication failed due to server error" ∧
    Error.Error
        ⟨502, "authentication failed", "auth_failed",
          "authentication failed due to server error", 0⟩ =
      "502 [auth_failed]: authentication failed due to server error" :=
  ⟨fun _ => rfl, by decide, by decide, by decide⟩

/-- C8: once validation passes, `request` with no destination returns the
response with a nil error and never attempts a decode, and with a
destination returns exactly what the standard JSON decode of the body
produces — its error unmodified on failure, a nil error on success. -/
theorem requestFinish_decode_behavior (res : Response)
    (h : checkResponse res = none) :
    requestFinish res false = (res, none) ∧
    (∀ e, decodeValue res.body = .error e → requestFinish res true = (res, some e)) ∧
    (∀ v, decodeValue res.body = .ok v → requestFinish res true = (res, none)) := by
  refine ⟨?_, fun e he => ?_, fun v hv => ?_⟩
  · simp [requestFinish, h]
  · simp [requestFinish, h, he]
  · simp [requestFinish, h, hv]

/-- Witness for C8: with the malformed body `"{"` a nil destination yields
no error while a destination surfaces `io.ErrUnexpectedEOF` unmodified, and
with the well-formed body `"{}"` a destination decode succeeds. -/
theorem requestFinish_decode_behavior_witness :
    requestFinish ⟨200, jsonContentType, "\x7b"⟩ false =
      (⟨200, jsonContentType, "\x7b"⟩, none) ∧
    requestFinish ⟨200, jsonContentType, "\x7b"⟩ true =
      (⟨200, jsonContentType, "\x7b"⟩, some GoError.ioUnexpectedEOF) ∧
    requestFinish ⟨200, jsonContentType, "\x7b\x7d"⟩ true =
      (⟨200, jsonContentType, "\x7b\x7d"⟩, none) :=
  ⟨(requestFinish_decode_behavior ⟨200, jsonContentType, "\x7b"⟩ rfl).1,
    (requestFinish_decode_behavior ⟨200, jsonContentType, "\x7b"⟩ rfl).2.1
      GoError.ioUnexpectedEOF rfl,
    (requestFinish_decode_behavior ⟨200, jsonContentType, "\x7b\x7d"⟩ rfl).2.2
      (Jval.obj []) rfl⟩

/-- C9: `NewClient` given a nil HTTP transport handle substitutes the
process default client and construction succeeds, returning a fully
populated `Client` around that default handle. -/
theorem NewClient_nil_transport_uses_default (clientID clientSecret : String) :
    NewClient clientID clientSecret none =
      Except.ok
        { client := defaultHttpClient
          url := baseURL
          clientID := clientID
          clientSecret := clientSecret
          userAgent := "github.com/mdlayher/untappd" } :=
  rfl

/-- C10: the string rendered by `Error.Error` does not depend on the
`Duration` field: two errors agreeing on `Code`, `eType`, `Detail` and
`DeveloperFriendly` render identically whatever their durations. -/
theorem Error_Error_independent_of_Duration (e1 e2 : Error)
    (hc : e1.Code = e2.Code) (ht : e1.eType = e2.eType)
    (hd : e1.Detail = e2.Detail)
    (hdf : e1.DeveloperFriendly = e2.DeveloperFriendly) :
    Error.Error e1 = Error.Error e2 := by
  simp [Error.Error, hc, ht, hd, hdf]

/-- Witness for C10 at two errors differing only in `Duration`. -/
theorem Error_Error_independent_of_Duration_witness :
    Error.Error ⟨404, "Invalid user.", "invalid_user", "", 0⟩ =
      Error.Error ⟨404, "Invalid user.", "invalid_user", "", 123456789⟩ :=
  Error_Error_independent_of_Duration _ _ rfl rfl rfl rfl

end Untappd
